import Mathlib

/-!
Shallow embedding of the Mashchem server API routes
(`server/routes/products.js` and `server/routes/contact.js`).

Both route modules follow the same load-mutate-persist shape: each request
reads the whole JSON array from disk, operates on the in-memory copy and,
for mutating operations, writes the whole array back.  We embed that shape
directly:

* the on-disk contents at the start of a request are an explicit
  `List Product` / `List Submission` argument (a failed read of the
  products file is `Option.none`, mirroring the `catch` in
  `getProductsData` which returns `[]`);
* whether the `fs.writeFile` inside `saveProductsData` / `saveSubmissions`
  would succeed is an explicit `writeOk : Bool` argument;
* `new Date().toISOString()` timestamps are an explicit `now : Nat`
  argument, `uuidv4()` an explicit `freshId : String` argument, and
  `req.ip` / `req.get(..)` explicit string arguments;
* every handler returns an `Outcome` recording the HTTP status code, the
  `success` flag of the JSON envelope, the `data` payload, the validation
  `errors` array, the resulting on-disk state, and whether a write to
  storage was attempted.

JavaScript primitives used by the routes (`parseInt`, `parseFloat`,
string truthiness, `validator.js` checks behind `express-validator`) are
embedded as executable Lean functions below, faithful to their behaviour
on the inputs the routes can feed them.
-/

namespace Mashchem

/-- One entry of the `errors` array in a 400 response, as produced by
`handleValidationErrors`: `{field: err.path, message: err.msg}`. -/
structure FieldError where
  field : String
  message : String
deriving DecidableEq, Repr

/-- JavaScript string truthiness, as used in `if (category)`,
`if (minPrice)`, `if (status)`, ...: an absent query value or the empty
string is falsy, every other string is truthy. -/
def truthyStr : Option String → Bool
  | none => false
  | some s => !s.data.isEmpty

/-- JavaScript `String.prototype.trim`: strip whitespace from both
ends. -/
def jsTrim (s : String) : String :=
  ⟨((s.data.dropWhile Char.isWhitespace).reverse.dropWhile
      Char.isWhitespace).reverse⟩

/-- JavaScript `String.prototype.toLowerCase` on the ASCII-range strings
the routes handle. -/
def jsToLower (s : String) : String :=
  ⟨s.data.map Char.toLower⟩

/-- `validator.js` `isNumeric` (default options), the check behind
`param('id').isNumeric()`: the regex `^[+-]?([0-9]*[.])?[0-9]+$`. -/
def isNumericStr (s : String) : Bool :=
  let cs := s.data
  let cs := match cs with
    | c :: rest => if c = '+' || c = '-' then rest else cs
    | [] => []
  let pre := cs.takeWhile Char.isDigit
  let rest := cs.dropWhile Char.isDigit
  match rest with
  | [] => !pre.isEmpty
  | '.' :: rest2 => !rest2.isEmpty && rest2.all Char.isDigit
  | _ => false

/-- JavaScript `parseInt(s)` (no radix argument, decimal input): skip
leading whitespace, optional sign, then the longest digit run; `none`
models `NaN` (no digits).  The hexadecimal `0x` form cannot reach the
routes because `isNumeric` rejects it, so it is not modelled. -/
def parseIntJs (s : String) : Option Int :=
  let cs := s.data.dropWhile Char.isWhitespace
  let (neg, cs) : Bool × List Char :=
    match cs with
    | '-' :: r => (true, r)
    | '+' :: r => (false, r)
    | _ => (false, cs)
  let ds := cs.takeWhile Char.isDigit
  if ds.isEmpty then none
  else
    let n : Nat := ds.foldl (fun a c => a * 10 + (c.toNat - '0'.toNat)) 0
    some (if neg then -(n : Int) else (n : Int))

/-- The result of JavaScript `parseFloat`: `NaN`, `±Infinity`, or a
finite decimal value (embedded exactly as ℚ; IEEE rounding of finite
values is not modelled, which never changes NaN-ness or sign). -/
inductive JsNumber where
  | nan
  | posInf
  | negInf
  | finite (v : ℚ)
deriving DecidableEq, Repr

/-- The finite value of a parse result, for contexts the validators
guarantee to be finite (`price: parseFloat(req.body.price)` runs only
after `isFloat({min: 0})` accepted the string). -/
def JsNumber.finiteD (n : JsNumber) (d : ℚ) : ℚ :=
  match n with
  | .finite v => v
  | _ => d

/-- The optional exponent part of a `parseFloat` literal: `e`/`E` was
consumed, then an optional sign and digits; an exponent with no digits
is not part of the number (contributes 0, as in `parseFloat("1e")`). -/
def parseExpJs (r : List Char) : Int :=
  let (eneg, r2) : Bool × List Char :=
    match r with
    | '-' :: rr => (true, rr)
    | '+' :: rr => (false, rr)
    | _ => (false, r)
  let eds := r2.takeWhile Char.isDigit
  if eds.isEmpty then 0
  else
    let e : Nat := eds.foldl (fun a c => a * 10 + (c.toNat - '0'.toNat)) 0
    if eneg then -(e : Int) else (e : Int)

/-- JavaScript `parseFloat(s)`: skip leading whitespace, optional sign,
then the longest valid prefix — the literal `Infinity`, or decimal
digits with an optional fractional part and an optional exponent;
`JsNumber.nan` models `NaN` (no digits and no `Infinity` at all). -/
def parseFloatJs (s : String) : JsNumber :=
  let cs := s.data.dropWhile Char.isWhitespace
  let (neg, cs) : Bool × List Char :=
    match cs with
    | '-' :: r => (true, r)
    | '+' :: r => (false, r)
    | _ => (false, cs)
  if "Infinity".data.isPrefixOf cs then
    if neg then JsNumber.negInf else JsNumber.posInf
  else
    let ip := cs.takeWhile Char.isDigit
    let rest := cs.dropWhile Char.isDigit
    let fp : List Char :=
      match rest with
      | '.' :: r => r.takeWhile Char.isDigit
      | _ => []
    if ip.isEmpty && fp.isEmpty then JsNumber.nan
    else
      let ipn : Nat := ip.foldl (fun a c => a * 10 + (c.toNat - '0'.toNat)) 0
      let fpn : Nat := fp.foldl (fun a c => a * 10 + (c.toNat - '0'.toNat)) 0
      let rest2 : List Char :=
        match rest with
        | '.' :: r => r.dropWhile Char.isDigit
        | _ => rest
      let expVal : Int :=
        match rest2 with
        | 'e' :: r => parseExpJs r
        | 'E' :: r => parseExpJs r
        | _ => 0
      let base : Nat := ipn * 10 ^ fp.length + fpn
      let den0 : Nat := 10 ^ fp.length
      let (numv, denv) : Nat × Nat :=
        match expVal with
        | Int.ofNat e => (base * 10 ^ e, den0)
        | Int.negSucc e => (base, den0 * 10 ^ (e + 1))
      JsNumber.finite
        (mkRat (if neg then -(numv : Int) else (numv : Int)) denv)

/-- JavaScript `hay.includes(needle)` on the underlying character lists. -/
def listIncludes : List Char → List Char → Bool
  | hay, needle =>
    if needle.isPrefixOf hay then true
    else
      match hay with
      | [] => false
      | _ :: t => listIncludes t needle

/-- JavaScript `String.prototype.includes`. -/
def strIncludes (hay needle : String) : Bool :=
  listIncludes hay.data needle.data

/-- `[...new Set(xs)]`: distinct elements in first-occurrence order. -/
def distinctPreservingOrder (l : List String) : List String :=
  l.foldl (fun acc c => if acc.contains c then acc else acc ++ [c]) []

/-- The result a route handler sends back, together with the state the
backing file is left in.  `status`/`success`/`data`/`errors` embed the
HTTP response; `newState` is the on-disk array after the request
(unchanged when no write happened or the write failed); `wrote` records
whether the handler attempted a write to storage at all. -/
structure Outcome (α : Type) (σ : Type) where
  status : Nat
  success : Bool
  data : Option α
  errors : List FieldError
  newState : σ
  wrote : Bool
deriving DecidableEq, Repr

-- ===========================================================================
-- Product catalog store (server/routes/products.js)
-- ===========================================================================

/-- One record of `products.json`.  `price` is a decimal (embedded as ℚ),
timestamps are abstract instants.  `updatedAt` is absent until the first
`PUT`. -/
structure Product where
  id : Int
  name : String
  image : String
  description : String
  packaging : String
  category : String
  price : ℚ
  createdAt : Nat
  updatedAt : Option Nat
deriving DecidableEq, Repr

/-- `getProductsData`: read and parse `products.json`; any error is caught
and degrades to the empty list.  `none` models an unreadable or
unparsable file. -/
def getProductsData (readResult : Option (List Product)) : List Product :=
  readResult.getD []

/-- Query string of `GET /api/products`. -/
structure ProductQuery where
  category : Option String
  search : Option String
  minPrice : Option String
  maxPrice : Option String
  sort : Option String
deriving DecidableEq, Repr

/-- The everything-absent query. -/
def ProductQuery.empty : ProductQuery :=
  { category := none, search := none, minPrice := none, maxPrice := none,
    sort := none }

/-- JavaScript `p.price >= parseFloat(minPrice)`: false against a `NaN`
bound, false against `Infinity`, true against `-Infinity`, the ordinary
comparison against a finite bound. -/
def geFloat (price : ℚ) (bound : JsNumber) : Bool :=
  match bound with
  | .finite v => price ≥ v
  | .negInf => true
  | .posInf => false
  | .nan => false

/-- JavaScript `p.price <= parseFloat(maxPrice)`: false against a `NaN`
bound, true against `Infinity`, false against `-Infinity`, the ordinary
comparison against a finite bound. -/
def leFloat (price : ℚ) (bound : JsNumber) : Bool :=
  match bound with
  | .finite v => price ≤ v
  | .negInf => false
  | .posInf => true
  | .nan => false

/-- The category filter step of `GET /api/products`:
`p.category.toLowerCase() === category.toLowerCase()`. -/
def filterCategory (q : ProductQuery) (ps : List Product) : List Product :=
  if truthyStr q.category then
    let c := q.category.getD ""
    ps.filter (fun p => jsToLower p.category == jsToLower c)
  else ps

/-- The search filter step of `GET /api/products`. -/
def filterSearch (q : ProductQuery) (ps : List Product) : List Product :=
  if truthyStr q.search then
    let term := jsToLower (q.search.getD "")
    ps.filter (fun p =>
      strIncludes (jsToLower p.name) term || strIncludes (jsToLower p.description) term)
  else ps

/-- The minPrice filter step of `GET /api/products`. -/
def filterMinPrice (q : ProductQuery) (ps : List Product) : List Product :=
  if truthyStr q.minPrice then
    ps.filter (fun p => geFloat p.price (parseFloatJs (q.minPrice.getD "")))
  else ps

/-- The maxPrice filter step of `GET /api/products`. -/
def filterMaxPrice (q : ProductQuery) (ps : List Product) : List Product :=
  if truthyStr q.maxPrice then
    ps.filter (fun p => leFloat p.price (parseFloatJs (q.maxPrice.getD "")))
  else ps

/-- The sort step of `GET /api/products`: the four recognized keys sort by
a comparator, anything else (including the falsy empty string) leaves the
order unchanged.  `localeCompare` on names is embedded as code-point
string order. -/
def applySort (q : ProductQuery) (ps : List Product) : List Product :=
  match q.sort with
  | none => ps
  | some s =>
    if s = "" then ps
    else if s = "price_asc" then ps.mergeSort (fun a b => a.price ≤ b.price)
    else if s = "price_desc" then ps.mergeSort (fun a b => b.price ≤ a.price)
    else if s = "name_asc" then ps.mergeSort (fun a b => a.name ≤ b.name)
    else if s = "name_desc" then ps.mergeSort (fun a b => b.name ≤ a.name)
    else ps

/-- Response body of `GET /api/products`. -/
structure ProductsListResponse where
  success : Bool
  count : Nat
  categories : List String
  data : List Product
deriving DecidableEq, Repr

/-- `GET /api/products`: load the catalog (degrading to `[]` on a read
failure), apply category, search, min/max price filters and the sort, and
report the distinct categories of the catalog as re-read from disk
(the unfiltered `allProducts`). -/
def listProducts (readResult : Option (List Product)) (q : ProductQuery) :
    ProductsListResponse :=
  let products0 := getProductsData readResult
  let filtered :=
    applySort q (filterMaxPrice q (filterMinPrice q
      (filterSearch q (filterCategory q products0))))
  let allProducts := getProductsData readResult
  { success := true
    count := filtered.length
    categories := distinctPreservingOrder (allProducts.map Product.category)
    data := filtered }

/-- `GET /api/products/:id`: validate the id with `isNumeric`, then find
`p.id === parseInt(req.params.id)`.  Read-only, so the state and storage
are untouched. -/
def getProduct (state : List Product) (idStr : String) :
    Outcome Product (List Product) :=
  if !isNumericStr idStr then
    { status := 400, success := false, data := none,
      errors := [⟨"id", "Product ID must be a number"⟩],
      newState := state, wrote := false }
  else
    match state.find? (fun p => (some p.id : Option Int) == parseIntJs idStr) with
    | none =>
      { status := 404, success := false, data := none, errors := [],
        newState := state, wrote := false }
    | some p =>
      { status := 200, success := true, data := some p, errors := [],
        newState := state, wrote := false }

/-- Request body of `POST /api/products` as the validators see it:
`price` arrives as raw text (the JSON value coerced to a string, as
`validator.js` does) and `image` may be absent. -/
structure CreateBody where
  name : String
  image : Option String
  description : String
  packaging : String
  category : String
  price : String
deriving DecidableEq, Repr

/-- `validator.js` `isFloat({min: 0})`: the string must match the float
regex (which admits neither `NaN` nor `Infinity`) and its value must be
at least the bound. -/
def isFloatMin0 (s : String) : Bool :=
  match parseFloatJs s with
  | .finite v => v ≥ 0
  | _ => false

/-- The validator chain of `POST /api/products`, in declaration order;
each chain trims its field and reports its message on failure.  Returns
the `errors` array `handleValidationErrors` would send. -/
def validateCreate (b : CreateBody) : List FieldError :=
  (if jsTrim b.name = "" then [⟨"name", "Product name is required"⟩] else []) ++
  (if jsTrim b.description = "" then [⟨"description", "Description is required"⟩] else []) ++
  (if jsTrim b.category = "" then [⟨"category", "Category is required"⟩] else []) ++
  (if jsTrim b.packaging = "" then [⟨"packaging", "Packaging is required"⟩] else []) ++
  (if isFloatMin0 b.price then [] else [⟨"price", "Price must be a positive number"⟩])

/-- `Math.max(...)` over a nonempty list of ids. -/
def listMax : List Int → Int
  | [] => 0
  | [x] => x
  | x :: y :: t => max x (listMax (y :: t))

/-- The id generator of `POST /api/products`:
`products.length > 0 ? Math.max(...products.map(p => p.id)) : 0`. -/
def maxId (ps : List Product) : Int :=
  if ps.isEmpty then 0 else listMax (ps.map Product.id)

/-- The `newProduct` object built by `POST /api/products`: id
`maxId + 1`, image defaulted to the placeholder asset, `createdAt`
stamped.  The body fields are stored as the validators left them
(trimmed). -/
def newProductOf (state : List Product) (b : CreateBody) (now : Nat) :
    Product :=
  { id := maxId state + 1
    name := jsTrim b.name
    image := b.image.getD "Images/Maschem-dish-deluxe.png"
    description := jsTrim b.description
    packaging := jsTrim b.packaging
    category := jsTrim b.category
    price := (parseFloatJs b.price).finiteD 0
    createdAt := now
    updatedAt := none }

/-- `POST /api/products`: after validation, assign `maxId + 1`, default
the image, stamp `createdAt`, push, and write the whole array back.  The
result of `saveProductsData` is not inspected: the 201 success envelope
is sent whether or not the write succeeded. -/
def createProduct (state : List Product) (b : CreateBody) (now : Nat)
    (writeOk : Bool) : Outcome Product (List Product) :=
  let errs := validateCreate b
  if errs ≠ [] then
    { status := 400, success := false, data := none, errors := errs,
      newState := state, wrote := false }
  else
    let newProduct := newProductOf state b now
    let pushed := state ++ [newProduct]
    { status := 201, success := true, data := some newProduct, errors := [],
      newState := if writeOk then pushed else state, wrote := true }

/-- Request body of `PUT /api/products/:id`: every field optional; a
present field overwrites the stored one (`{...old, ...req.body}`). -/
structure UpdateBody where
  name : Option String
  image : Option String
  description : Option String
  packaging : Option String
  category : Option String
  price : Option ℚ
deriving DecidableEq, Repr

/-- The validator chain of `PUT /api/products/:id`. -/
def validateUpdate (idStr : String) (b : UpdateBody) : List FieldError :=
  (if isNumericStr idStr then [] else [⟨"id", "Product ID must be a number"⟩]) ++
  (match b.name with
   | some n => if jsTrim n = "" then [⟨"name", "Product name cannot be empty"⟩] else []
   | none => []) ++
  (match b.price with
   | some v => if v ≥ 0 then [] else [⟨"price", "Price must be a positive number"⟩]
   | none => [])

/-- The merge `{...products[index], ...req.body, id: old.id, updatedAt}`. -/
def mergeUpdate (old : Product) (b : UpdateBody) (now : Nat) : Product :=
  { id := old.id
    name := b.name.getD old.name
    image := b.image.getD old.image
    description := b.description.getD old.description
    packaging := b.packaging.getD old.packaging
    category := b.category.getD old.category
    price := b.price.getD old.price
    createdAt := old.createdAt
    updatedAt := some now }

/-- `PUT /api/products/:id`: validate, locate by
`p.id === parseInt(req.params.id)`, 404 when absent (no write), otherwise
merge, replace in place and write the whole array back.  The write result
is not inspected: the success envelope is sent regardless. -/
def updateProduct (state : List Product) (idStr : String) (b : UpdateBody)
    (now : Nat) (writeOk : Bool) : Outcome Product (List Product) :=
  let errs := validateUpdate idStr b
  if errs ≠ [] then
    { status := 400, success := false, data := none, errors := errs,
      newState := state, wrote := false }
  else
    match state.findIdx? (fun p => (some p.id : Option Int) == parseIntJs idStr) with
    | none =>
      { status := 404, success := false, data := none, errors := [],
        newState := state, wrote := false }
    | some i =>
      let old := (state.get? i).getD
        { id := 0, name := "", image := "", description := "", packaging := "",
          category := "", price := 0, createdAt := 0, updatedAt := none }
      let updated := mergeUpdate old b now
      let next := state.set i updated
      { status := 200, success := true, data := some updated, errors := [],
        newState := if writeOk then next else state, wrote := true }

/-- `DELETE /api/products/:id`: validate the id with `isNumeric`, locate
by `p.id === parseInt(req.params.id)`, 404 when absent (no write),
otherwise splice the record out and write the whole array back.  The
write result is not inspected: the success envelope is sent regardless. -/
def deleteProduct (state : List Product) (idStr : String) (writeOk : Bool) :
    Outcome Product (List Product) :=
  if !isNumericStr idStr then
    { status := 400, success := false, data := none,
      errors := [⟨"id", "Product ID must be a number"⟩],
      newState := state, wrote := false }
  else
    match state.findIdx? (fun p => (some p.id : Option Int) == parseIntJs idStr) with
    | none =>
      { status := 404, success := false, data := none, errors := [],
        newState := state, wrote := false }
    | some i =>
      let deleted := state.get? i
      let next := state.eraseIdx i
      { status := 200, success := true, data := deleted, errors := [],
        newState := if writeOk then next else state, wrote := true }

-- ===========================================================================
-- Contact submission store (server/routes/contact.js)
-- ===========================================================================

/-- One record of `data/contact-submissions.json`. -/
structure Submission where
  id : String
  firstName : String
  lastName : String
  email : String
  phone : Option String
  subject : String
  message : String
  status : String
  createdAt : Nat
  updatedAt : Option Nat
  ipAddress : String
  userAgent : String
deriving DecidableEq, Repr

/-- Request body of `POST /api/contact` as received (before the trimming
and email-normalizing sanitizers run). -/
structure ContactBody where
  firstName : String
  lastName : String
  email : String
  phone : Option String
  subject : String
  message : String
deriving DecidableEq, Repr

/-- `validator.js` `isEmail` restricted to the plain ASCII
`local@domain.tld` shape the routes exercise: exactly one `@`, a nonempty
local part, and a domain with a dot that is neither first nor last. -/
def emailValid (s : String) : Bool :=
  match s.data.splitOn '@' with
  | [localPart, domain] =>
    !localPart.isEmpty && !domain.isEmpty &&
      (match domain.splitOn '.' with
       | [] => false
       | parts => parts.length ≥ 2 && parts.all (fun p => !p.isEmpty))
  | _ => false

/-- `validator.js` `normalizeEmail` with default options on a plain
address: lowercases the whole address. -/
def normalizeEmail (s : String) : String := jsToLower s

/-- A character allowed in the body of the phone pattern
`^[+]?[\d\s\-()]{7,20}$`. -/
def phoneBodyChar (c : Char) : Bool :=
  c.isDigit || c.isWhitespace || c = '-' || c = '(' || c = ')'

/-- The phone pattern `^[+]?[\d\s\-()]{7,20}$`. -/
def phoneMatches (s : String) : Bool :=
  let cs := match s.data with
    | '+' :: r => r
    | cs => cs
  7 ≤ cs.length && cs.length ≤ 20 && cs.all phoneBodyChar

/-- The accepted `subject` values. -/
def validSubjects : List String :=
  ["general", "products", "orders", "support", "partnership"]

/-- The accepted `status` values of `PATCH /api/contact/submissions/:id`. -/
def validStatuses : List String :=
  ["pending", "read", "responded", "archived"]

/-- Errors from the `firstName` / `lastName` chains: trim, `notEmpty`,
then `isLength({min: 2, max: 50})`; each failing validator adds its own
message. -/
def nameErrors (field label : String) (v : String) : List FieldError :=
  let t := jsTrim v
  (if t = "" then [⟨field, label ++ " is required"⟩] else []) ++
  (if 2 ≤ t.length ∧ t.length ≤ 50 then []
   else [⟨field, label ++ " must be 2-50 characters"⟩])

/-- Errors from the `email` chain: trim, `notEmpty`, `isEmail`. -/
def emailErrors (v : String) : List FieldError :=
  let t := jsTrim v
  (if t = "" then [⟨"email", "Email is required"⟩] else []) ++
  (if emailValid t then []
   else [⟨"email", "Please provide a valid email address"⟩])

/-- Errors from the optional `phone` chain: absent is fine; a present
value is trimmed and must match the phone pattern. -/
def phoneErrors (v : Option String) : List FieldError :=
  match v with
  | none => []
  | some p =>
    if phoneMatches (jsTrim p) then []
    else [⟨"phone", "Please provide a valid phone number"⟩]

/-- Errors from the `subject` chain: trim, `notEmpty`, `isIn`. -/
def subjectErrors (v : String) : List FieldError :=
  let t := jsTrim v
  (if t = "" then [⟨"subject", "Subject is required"⟩] else []) ++
  (if validSubjects.contains t then []
   else [⟨"subject", "Invalid subject selected"⟩])

/-- Errors from the `message` chain: trim, `notEmpty`, then
`isLength({min: 10, max: 2000})`. -/
def messageErrors (v : String) : List FieldError :=
  let t := jsTrim v
  (if t = "" then [⟨"message", "Message is required"⟩] else []) ++
  (if 10 ≤ t.length ∧ t.length ≤ 2000 then []
   else [⟨"message", "Message must be 10-2000 characters"⟩])

/-- The whole `POST /api/contact` validator array, chains in declaration
order: the `errors` array `handleValidationErrors` would send. -/
def validateContact (b : ContactBody) : List FieldError :=
  nameErrors "firstName" "First name" b.firstName ++
  nameErrors "lastName" "Last name" b.lastName ++
  emailErrors b.email ++
  phoneErrors b.phone ++
  subjectErrors b.subject ++
  messageErrors b.message

/-- The sanitizers of the `POST /api/contact` chains mutate `req.body`
before the handler runs: every checked field is trimmed and the email is
normalized. -/
def sanitizeContact (b : ContactBody) : ContactBody :=
  { firstName := jsTrim b.firstName
    lastName := jsTrim b.lastName
    email := normalizeEmail (jsTrim b.email)
    phone := b.phone.map jsTrim
    subject := jsTrim b.subject
    message := jsTrim b.message }

/-- JavaScript `x || null` on an optional string field. -/
def jsOrNull (o : Option String) : Option String :=
  match o with
  | some s => if s = "" then none else some s
  | none => none

/-- The `data` object of a successful `POST /api/contact` response: the
handler sends back exactly `{id, submittedAt}` and nothing else of the
stored record. -/
structure SubmitReply where
  id : String
  submittedAt : Nat
deriving DecidableEq, Repr

/-- The `newSubmission` object built by `POST /api/contact`: fresh uuid,
`phone: req.body.phone || null`, `status: 'pending'`, `createdAt`
stamped, caller network address and user agent recorded.  The body
fields are stored as the sanitizers left them (trimmed, email
normalized). -/
def newSubmissionOf (b : ContactBody) (freshId : String) (now : Nat)
    (ip ua : String) : Submission :=
  let body := sanitizeContact b
  { id := freshId
    firstName := body.firstName
    lastName := body.lastName
    email := body.email
    phone := jsOrNull body.phone
    subject := body.subject
    message := body.message
    status := "pending"
    createdAt := now
    updatedAt := none
    ipAddress := ip
    userAgent := ua }

/-- `POST /api/contact`: validate; on success build the new submission,
push it, and save.  This handler does check the save result: a failed
write throws `Error('Failed to save submission')`, which is forwarded to
the centralized handler in `server/middleware/errorHandler.js`; that
error carries no `statusCode` and no recognized `name`/`code`, so
`err.statusCode || 500` sends 500 with `success: false`. -/
def contactSubmit (state : List Submission) (b : ContactBody)
    (freshId : String) (now : Nat) (ip ua : String) (writeOk : Bool) :
    Outcome SubmitReply (List Submission) :=
  let errs := validateContact b
  if errs ≠ [] then
    { status := 400, success := false, data := none, errors := errs,
      newState := state, wrote := false }
  else
    let newSubmission := newSubmissionOf b freshId now ip ua
    let pushed := state ++ [newSubmission]
    if writeOk then
      { status := 201, success := true,
        data := some { id := newSubmission.id, submittedAt := newSubmission.createdAt },
        errors := [], newState := pushed, wrote := true }
    else
      { status := 500, success := false, data := none, errors := [],
        newState := state, wrote := true }

/-- Response body of `GET /api/contact/submissions`. -/
structure SubmissionsListResponse where
  success : Bool
  count : Nat
  data : List Submission
deriving DecidableEq, Repr

/-- `GET /api/contact/submissions`: optional exact `status` filter, then
sort by `createdAt` (oldest first when `sort === 'oldest'`, newest first
otherwise). -/
def listSubmissions (state : List Submission)
    (status sort : Option String) : SubmissionsListResponse :=
  let filtered :=
    if truthyStr status then
      state.filter (fun s => s.status == status.getD "")
    else state
  let sorted :=
    if sort = some "oldest" then
      filtered.mergeSort (fun a b => a.createdAt ≤ b.createdAt)
    else
      filtered.mergeSort (fun a b => b.createdAt ≤ a.createdAt)
  { success := true, count := sorted.length, data := sorted }

/-- `PATCH /api/contact/submissions/:id`: the body `status` must be one
of the four accepted values (400 otherwise); 404 when the id is absent
(no write); otherwise replace the record with its status updated and
`updatedAt` stamped, and write the whole array back.  The write result is
not inspected: the success envelope is sent regardless. -/
def updateSubmissionStatus (state : List Submission) (id newStatus : String)
    (now : Nat) (writeOk : Bool) : Outcome Submission (List Submission) :=
  if !(validStatuses.contains newStatus) then
    { status := 400, success := false, data := none,
      errors := [⟨"status", "Invalid status"⟩],
      newState := state, wrote := false }
  else
    match state.findIdx? (fun s => s.id == id) with
    | none =>
      { status := 404, success := false, data := none, errors := [],
        newState := state, wrote := false }
    | some i =>
      let old := (state.get? i).getD
        { id := "", firstName := "", lastName := "", email := "", phone := none,
          subject := "", message := "", status := "", createdAt := 0,
          updatedAt := none, ipAddress := "", userAgent := "" }
      let updated := { old with status := newStatus, updatedAt := some now }
      let next := state.set i updated
      { status := 200, success := true, data := some updated, errors := [],
        newState := if writeOk then next else state, wrote := true }

/-- `DELETE /api/contact/submissions/:id`: 404 when the id is absent (no
write); otherwise splice the record out and write the whole array back.
The write result is not inspected: the success envelope is sent
regardless. -/
def deleteSubmission (state : List Submission) (id : String)
    (writeOk : Bool) : Outcome Submission (List Submission) :=
  match state.findIdx? (fun s => s.id == id) with
  | none =>
    { status := 404, success := false, data := none, errors := [],
      newState := state, wrote := false }
  | some i =>
    let deleted := state.get? i
    let next := state.eraseIdx i
    { status := 200, success := true, data := deleted, errors := [],
      newState := if writeOk then next else state, wrote := true }

-- ===========================================================================
-- Sequential-create model and concrete fixtures
-- ===========================================================================

/-- The ids `[1, 2, ..., n]` as integers. -/
def idsUpTo (n : Nat) : List Int :=
  (List.range n).map (fun k : Nat => ((k : Int) + 1))

/-- N successive `POST /api/products` calls starting from an empty
catalog, every write succeeding: each call starts from the state the
previous one persisted. -/
def createMany (bodies : List CreateBody) (now : Nat) : List Product :=
  bodies.foldl (fun st b => (createProduct st b now true).newState) []

/-- A request body that passes the `POST /api/products` validators. -/
def sampleCreateBody : CreateBody :=
  { name := "Soap", image := none, description := "Dish soap",
    packaging := "1L", category := "Sanitizers", price := "9.5" }

/-- A catalog record with id 2, used to exercise the `:id` routes. -/
def demoProduct : Product :=
  { id := 2, name := "Soap", image := "i", description := "Dish soap",
    packaging := "1L", category := "Sanitizers", price := 3,
    createdAt := 0, updatedAt := none }

/-- The all-absent `PUT /api/products/:id` body. -/
def emptyUpdateBody : UpdateBody :=
  { name := none, image := none, description := none, packaging := none,
    category := none, price := none }

/-- A request body that passes the `POST /api/contact` validators (the
worked example of the spec). -/
def demoContactBody : ContactBody :=
  { firstName := "Jo", lastName := "Doe", email := "jo@x.com",
    phone := none, subject := "general",
    message := "Hello there, need info" }

/-- A stored submission, used to exercise the `:id` routes. -/
def demoSubmission : Submission :=
  { id := "u1", firstName := "Jo", lastName := "Doe", email := "jo@x.com",
    phone := none, subject := "general",
    message := "Hello there, need info", status := "pending",
    createdAt := 5, updatedAt := none, ipAddress := "::1",
    userAgent := "UA" }

-- ===========================================================================
-- Helper lemmas
-- ===========================================================================

theorem listMax_concat (xs : List Int) (a : Int) (h : xs ≠ []) :
    listMax (xs ++ [a]) = max (listMax xs) a := by
  induction xs with
  | nil => exact absurd rfl h
  | cons x t ih =>
    cases t with
    | nil => simp [listMax]
    | cons y t2 =>
      have ih2 := ih (List.cons_ne_nil y t2)
      simp only [List.cons_append, List.append_eq, listMax] at ih2 ⊢
      rw [ih2, max_assoc]

theorem le_listMax : ∀ {xs : List Int} {x : Int}, x ∈ xs → x ≤ listMax xs
  | [y], x, h => by
    simp at h
    simp [listMax, h]
  | y :: z :: t, x, h => by
    rcases List.mem_cons.mp h with h1 | h2
    · simp [listMax, h1]
    · have := le_listMax h2
      simp only [listMax]
      exact le_max_of_le_right this

theorem idsUpTo_succ (n : Nat) :
    idsUpTo (n + 1) = idsUpTo n ++ [(n : Int) + 1] := by
  simp [idsUpTo, List.range_succ]

theorem idsUpTo_ne_nil (n : Nat) : idsUpTo (n + 1) ≠ [] := by
  simp [idsUpTo, List.range_succ]

theorem listMax_idsUpTo : ∀ n : Nat, listMax (idsUpTo (n + 1)) = (n : Int) + 1
  | 0 => by simp [idsUpTo, List.range_succ, listMax]
  | n + 1 => by
    rw [idsUpTo_succ (n + 1), listMax_concat _ _ (idsUpTo_ne_nil n),
      listMax_idsUpTo n]
    have h1 : ((n : Int) + 1) ≤ ((n + 1 : Nat) : Int) + 1 := by
      push_cast
      omega
    rw [max_eq_right h1]

theorem maxId_of_idsUpTo (ps : List Product) (n : Nat)
    (h : ps.map Product.id = idsUpTo n) : maxId ps = (n : Int) := by
  cases n with
  | zero =>
    have hnil : ps = [] := by
      have : ps.map Product.id = [] := by simpa [idsUpTo] using h
      exact List.map_eq_nil_iff.mp this
    simp [maxId, hnil]
  | succ m =>
    have hne : ps ≠ [] := by
      intro hnil
      rw [hnil] at h
      exact idsUpTo_ne_nil m h.symm
    have : ps.isEmpty = false := by
      simpa [List.isEmpty_iff] using hne
    rw [maxId, this]
    simp only [Bool.false_eq_true, if_false]
    rw [h, listMax_idsUpTo m]
    push_cast
    ring

theorem nodup_idsUpTo (n : Nat) : (idsUpTo n).Nodup := by
  have hinj : Function.Injective (fun k : Nat => ((k : Int) + 1)) := by
    intro a b hab
    have h2 : (a : Int) = (b : Int) := by simpa using hab
    exact_mod_cast h2
  rw [idsUpTo]
  exact List.Nodup.map hinj (List.nodup_range n)

theorem createProduct_of_valid (st : List Product) (b : CreateBody)
    (now : Nat) (w : Bool) (h : validateCreate b = []) :
    createProduct st b now w =
      { status := 201, success := true,
        data := some (newProductOf st b now), errors := [],
        newState := if w then st ++ [newProductOf st b now] else st,
        wrote := true } := by
  simp [createProduct, h]

theorem maxId_succ_not_mem (ps : List Product) :
    maxId ps + 1 ∉ ps.map Product.id := by
  intro hmem
  have hne : ps.map Product.id ≠ [] := by
    intro hnil
    rw [hnil] at hmem
    exact (List.not_mem_nil _) hmem
  have hempty : ps.isEmpty = false := by
    rcases ps with _ | ⟨a, t⟩
    · simp at hne
    · rfl
  have hle : maxId ps + 1 ≤ listMax (ps.map Product.id) := le_listMax hmem
  rw [maxId, hempty] at hle
  simp only [Bool.false_eq_true, if_false] at hle
  omega

theorem createMany_go (bodies : List CreateBody) :
    ∀ (st : List Product) (k : Nat) (now : Nat),
      st.map Product.id = idsUpTo k →
      (∀ b ∈ bodies, validateCreate b = []) →
      ((bodies.foldl (fun s b => (createProduct s b now true).newState)
          st).map Product.id) = idsUpTo (k + bodies.length) := by
  induction bodies with
  | nil =>
    intro st k now hst _
    simpa using hst
  | cons b t ih =>
    intro st k now hst hv
    have hb : validateCreate b = [] := hv b (List.mem_cons_self _ _)
    have hstep : (createProduct st b now true).newState =
        st ++ [newProductOf st b now] := by
      rw [createProduct_of_valid st b now true hb]
      simp
    have hid : (newProductOf st b now).id = (k : Int) + 1 := by
      simp [newProductOf, maxId_of_idsUpTo st k hst]
    have hnextids : (st ++ [newProductOf st b now]).map Product.id =
        idsUpTo (k + 1) := by
      rw [List.map_append, hst, idsUpTo_succ]
      simp [hid]
    have hrec := ih (st ++ [newProductOf st b now]) (k + 1) now hnextids
      (fun x hx => hv x (List.mem_cons_of_mem _ hx))
    simp only [List.foldl_cons, hstep]
    rw [hrec]
    congr 1
    simp [List.length_cons]
    omega

theorem truthy_of_ne_empty (X : String) (h : X ≠ "") :
    truthyStr (some X) = true := by
  rcases X with ⟨cs⟩
  cases cs with
  | nil => exact absurd rfl h
  | cons c t => rfl

theorem mem_of_filterCategory {q : ProductQuery} {l : List Product}
    {p : Product} (h : p ∈ filterCategory q l) : p ∈ l := by
  unfold filterCategory at h
  split at h
  · exact (List.mem_filter.mp h).1
  · exact h

theorem mem_of_filterSearch {q : ProductQuery} {l : List Product}
    {p : Product} (h : p ∈ filterSearch q l) : p ∈ l := by
  unfold filterSearch at h
  split at h
  · exact (List.mem_filter.mp h).1
  · exact h

theorem mem_of_filterMinPrice {q : ProductQuery} {l : List Product}
    {p : Product} (h : p ∈ filterMinPrice q l) : p ∈ l := by
  unfold filterMinPrice at h
  split at h
  · exact (List.mem_filter.mp h).1
  · exact h

theorem mem_of_filterMaxPrice {q : ProductQuery} {l : List Product}
    {p : Product} (h : p ∈ filterMaxPrice q l) : p ∈ l := by
  unfold filterMaxPrice at h
  split at h
  · exact (List.mem_filter.mp h).1
  · exact h

theorem mem_applySort {q : ProductQuery} {l : List Product} {p : Product} :
    p ∈ applySort q l ↔ p ∈ l := by
  unfold applySort
  cases q.sort with
  | none => exact Iff.rfl
  | some s =>
    simp only
    split
    · exact Iff.rfl
    · split
      · exact (List.mergeSort_perm l _).mem_iff
      · split
        · exact (List.mergeSort_perm l _).mem_iff
        · split
          · exact (List.mergeSort_perm l _).mem_iff
          · split
            · exact (List.mergeSort_perm l _).mem_iff
            · exact Iff.rfl

theorem filterCategory_nil (q : ProductQuery) : filterCategory q [] = [] := by
  unfold filterCategory
  split <;> simp

theorem filterSearch_nil (q : ProductQuery) : filterSearch q [] = [] := by
  unfold filterSearch
  split <;> simp

theorem filterMinPrice_nil (q : ProductQuery) : filterMinPrice q [] = [] := by
  unfold filterMinPrice
  split <;> simp

theorem filterMaxPrice_nil (q : ProductQuery) : filterMaxPrice q [] = [] := by
  unfold filterMaxPrice
  split <;> simp

theorem applySort_nil (q : ProductQuery) : applySort q [] = [] := by
  unfold applySort
  cases q.sort with
  | none => rfl
  | some s =>
    simp only
    split
    · rfl
    · split
      · simp
      · split
        · simp
        · split
          · simp
          · split
            · simp
            · rfl

theorem mem_distinctFold (l : List String) :
    ∀ (acc : List String) (x : String),
      (x ∈ l.foldl (fun a c => if a.contains c then a else a ++ [c]) acc) ↔
        (x ∈ acc ∨ x ∈ l) := by
  induction l with
  | nil =>
    intro acc x
    simp
  | cons c t ih =>
    intro acc x
    simp only [List.foldl_cons]
    rw [ih]
    by_cases hc : acc.contains c = true
    · have hcm : c ∈ acc := List.elem_iff.mp hc
      rw [if_pos hc]
      simp only [List.mem_cons]
      constructor
      · rintro (h | h)
        · exact Or.inl h
        · exact Or.inr (Or.inr h)
      · rintro (h | h | h)
        · exact Or.inl h
        · exact Or.inl (h ▸ hcm)
        · exact Or.inr h
    · rw [if_neg hc]
      simp only [List.mem_append, List.mem_singleton, List.mem_cons]
      tauto

theorem nodup_distinctFold (l : List String) :
    ∀ acc : List String, acc.Nodup →
      (l.foldl (fun a c => if a.contains c then a else a ++ [c]) acc).Nodup := by
  induction l with
  | nil =>
    intro acc h
    simpa using h
  | cons c t ih =>
    intro acc h
    simp only [List.foldl_cons]
    apply ih
    by_cases hc : acc.contains c = true
    · rwa [if_pos hc]
    · rw [if_neg hc]
      rw [List.nodup_append]
      refine ⟨h, List.nodup_singleton c, ?_⟩
      intro x hx hxc
      rcases List.mem_singleton.mp hxc with rfl
      exact hc (List.elem_iff.mpr hx)

theorem mem_distinctPreservingOrder (l : List String) (x : String) :
    x ∈ distinctPreservingOrder l ↔ x ∈ l := by
  unfold distinctPreservingOrder
  rw [mem_distinctFold]
  simp

theorem nodup_distinctPreservingOrder (l : List String) :
    (distinctPreservingOrder l).Nodup :=
  nodup_distinctFold l [] List.nodup_nil

theorem findIdx?_append_cons {α : Type} (p : α → Bool) :
    ∀ (l1 : List α) (x : α) (l2 : List α) (i : Nat),
      (∀ y ∈ l1, p y = false) → p x = true →
      List.findIdx? p (l1 ++ x :: l2) i = some (i + l1.length) := by
  intro l1
  induction l1 with
  | nil =>
    intro x l2 i _ hx
    simp [List.findIdx?_cons, hx]
  | cons y t ih =>
    intro x l2 i hl hx
    have hy : p y = false := hl y (List.mem_cons_self _ _)
    rw [List.cons_append, List.findIdx?_cons, hy]
    simp only [Bool.false_eq_true, if_false]
    rw [ih x l2 (i + 1) (fun z hz => hl z (List.mem_cons_of_mem _ hz)) hx]
    congr 1
    simp [List.length_cons]
    omega

theorem get?_append_cons {α : Type} :
    ∀ (l1 : List α) (x : α) (l2 : List α),
      (l1 ++ x :: l2).get? l1.length = some x := by
  intro l1
  induction l1 with
  | nil => intro x l2; rfl
  | cons y t ih => intro x l2; simpa using ih x l2

theorem set_append_cons {α : Type} :
    ∀ (l1 : List α) (x u : α) (l2 : List α),
      (l1 ++ x :: l2).set l1.length u = l1 ++ u :: l2 := by
  intro l1
  induction l1 with
  | nil => intro x u l2; rfl
  | cons y t ih =>
    intro x u l2
    simp only [List.cons_append, List.length_cons, List.set, List.append_eq]
    rw [ih x u l2]

theorem eraseIdx_append_cons {α : Type} :
    ∀ (l1 : List α) (x : α) (l2 : List α),
      (l1 ++ x :: l2).eraseIdx l1.length = l1 ++ l2 := by
  intro l1
  induction l1 with
  | nil => intro x l2; rfl
  | cons y t ih =>
    intro x l2
    simp only [List.cons_append, List.length_cons, List.eraseIdx, List.append_eq]
    rw [ih x l2]

theorem find?_append_cons {α : Type} (p : α → Bool) :
    ∀ (l1 : List α) (x : α) (l2 : List α),
      (∀ y ∈ l1, p y = false) → p x = true →
      (l1 ++ x :: l2).find? p = some x := by
  intro l1
  induction l1 with
  | nil =>
    intro x l2 _ hx
    simpa using List.find?_cons_of_pos l2 hx
  | cons y t ih =>
    intro x l2 hl hx
    have hy : p y = false := hl y (List.mem_cons_self _ _)
    rw [List.cons_append,
      List.find?_cons_of_neg _ (by simp [hy])]
    exact ih x l2 (fun z hz => hl z (List.mem_cons_of_mem _ hz)) hx

theorem nodup_key_decomp {α β : Type} (key : α → β) :
    ∀ (l : List α) (x : α), (l.map key).Nodup → x ∈ l →
      ∃ l1 l2, l = l1 ++ x :: l2 ∧ (∀ y ∈ l1, key y ≠ key x) ∧
        (∀ y ∈ l2, key y ≠ key x) := by
  intro l
  induction l with
  | nil =>
    intro x _ hx
    cases hx
  | cons a t ih =>
    intro x hnd hx
    have hnd2 : (key a :: t.map key).Nodup := by simpa using hnd
    rcases List.mem_cons.mp hx with rfl | hxt
    · refine ⟨[], t, rfl, by simp, ?_⟩
      intro y hy hkey
      have hmem : key x ∈ t.map key := hkey ▸ List.mem_map_of_mem key hy
      exact (List.nodup_cons.mp hnd2).1 hmem
    · rcases ih x (List.nodup_cons.mp hnd2).2 hxt with ⟨l1, l2, rfl, h1, h2⟩
      refine ⟨a :: l1, l2, rfl, ?_, h2⟩
      intro y hy
      rcases List.mem_cons.mp hy with rfl | hyl1
      · intro hkey
        have hxmem : key x ∈ (l1 ++ x :: l2).map key :=
          List.mem_map_of_mem key (by simp)
        have hmem : key y ∈ (l1 ++ x :: l2).map key := hkey ▸ hxmem
        exact (List.nodup_cons.mp hnd2).1 hmem
      · exact h1 y hyl1

-- ===========================================================================
-- Claims
-- ===========================================================================

/-- C1, as stated, is false on the code: `POST /api/products` ignores the
result of `saveProductsData`, so with the storage write failing
(`writeOk = false`, `wrote = true`) the create is still reported as a 201
success. -/
theorem c1_counterexample :
    (createProduct [] sampleCreateBody 0 false).wrote = true ∧
    (createProduct [] sampleCreateBody 0 false).success = true ∧
    (createProduct [] sampleCreateBody 0 false).status = 201 := by
  decide

/-- C1 (amended): only contact submit reports a failed storage write as a
failed operation (500, success=false).  The five other mutating
operations — product create, update, delete and contact updateStatus,
delete — do not inspect the write result: their status code and success
flag are identical whether the write succeeds or fails, and product
create on valid input reports 201 success even when the write fails. -/
theorem c1_write_failure_reporting :
    (∀ (st : List Submission) (b : ContactBody) (fid : String) (now : Nat)
        (ip ua : String), validateContact b = [] →
      (contactSubmit st b fid now ip ua false).success = false ∧
      (contactSubmit st b fid now ip ua false).status = 500) ∧
    (∀ (st : List Product) (b : CreateBody) (now : Nat),
      validateCreate b = [] →
      (createProduct st b now false).success = true ∧
      (createProduct st b now false).status = 201 ∧
      (createProduct st b now false).wrote = true) ∧
    (∀ (st : List Product) (s : String) (b : UpdateBody) (now : Nat),
      (updateProduct st s b now false).success =
        (updateProduct st s b now true).success ∧
      (updateProduct st s b now false).status =
        (updateProduct st s b now true).status) ∧
    (∀ (st : List Product) (s : String),
      (deleteProduct st s false).success = (deleteProduct st s true).success ∧
      (deleteProduct st s false).status = (deleteProduct st s true).status) ∧
    (∀ (st : List Submission) (sid ns : String) (now : Nat),
      (updateSubmissionStatus st sid ns now false).success =
        (updateSubmissionStatus st sid ns now true).success ∧
      (updateSubmissionStatus st sid ns now false).status =
        (updateSubmissionStatus st sid ns now true).status) ∧
    (∀ (st : List Submission) (sid : String),
      (deleteSubmission st sid false).success =
        (deleteSubmission st sid true).success ∧
      (deleteSubmission st sid false).status =
        (deleteSubmission st sid true).status) := by
  refine ⟨?_, ?_, ?_, ?_, ?_, ?_⟩
  · intro st b fid now ip ua h
    simp [contactSubmit, h]
  · intro st b now h
    simp [createProduct, h]
  · intro st s b now
    by_cases he : validateUpdate s b = []
    · cases hidx : st.findIdx?
          (fun p => (some p.id : Option Int) == parseIntJs s) with
      | none => simp [updateProduct, he, hidx]
      | some i => simp [updateProduct, he, hidx]
    · simp [updateProduct, he]
  · intro st s
    by_cases hn : isNumericStr s = true
    · cases hidx : st.findIdx?
          (fun p => (some p.id : Option Int) == parseIntJs s) with
      | none => simp [deleteProduct, hn, hidx]
      | some i => simp [deleteProduct, hn, hidx]
    · simp [deleteProduct, hn]
  · intro st sid ns now
    by_cases hv : ns ∈ validStatuses
    · cases hidx : st.findIdx? (fun s => s.id == sid) with
      | none => simp [updateSubmissionStatus, hv, hidx]
      | some i => simp [updateSubmissionStatus, hv, hidx]
    · simp [updateSubmissionStatus, hv]
  · intro st sid
    cases hidx : st.findIdx? (fun s => s.id == sid) with
    | none => simp [deleteSubmission, hidx]
    | some i => simp [deleteSubmission, hidx]

/-- Witness for the amended C1 at concrete inputs. -/
theorem c1_write_failure_reporting_witness :
    ((contactSubmit [] demoContactBody "u2" 11 "ip" "ua" false).success =
        false ∧
      (contactSubmit [] demoContactBody "u2" 11 "ip" "ua" false).status =
        500) ∧
    ((createProduct [] sampleCreateBody 0 false).success = true ∧
      (createProduct [] sampleCreateBody 0 false).status = 201 ∧
      (createProduct [] sampleCreateBody 0 false).wrote = true) :=
  ⟨c1_write_failure_reporting.1 [] demoContactBody "u2" 11 "ip" "ua"
      (by decide),
    c1_write_failure_reporting.2.1 [] sampleCreateBody 0 (by decide)⟩

/-- C2: `POST /api/products` assigns `id = max(existing ids, default 0) + 1`;
N sequential creates from the empty catalog (every body valid, every
write succeeding) yield records whose ids are exactly `[1, ..., N]`, in
particular with no duplicates; and every create preserves id-uniqueness
of the collection. -/
theorem c2_create_ids (bodies : List CreateBody) (now : Nat)
    (hv : ∀ b ∈ bodies, validateCreate b = []) :
    ((createMany bodies now).map Product.id = idsUpTo bodies.length ∧
      ((createMany bodies now).map Product.id).Nodup) ∧
    (∀ (st : List Product) (b : CreateBody) (n : Nat) (w : Bool),
      validateCreate b = [] →
      ∃ p, (createProduct st b n w).data = some p ∧ p.id = maxId st + 1) ∧
    (∀ (st : List Product) (b : CreateBody) (n : Nat) (w : Bool),
      (st.map Product.id).Nodup →
      ((createProduct st b n w).newState.map Product.id).Nodup) := by
  refine ⟨?_, ?_, ?_⟩
  · have hids : (createMany bodies now).map Product.id =
        idsUpTo bodies.length := by
      have h := createMany_go bodies [] 0 now (by simp [idsUpTo]) hv
      simpa [createMany] using h
    exact ⟨hids, hids ▸ nodup_idsUpTo bodies.length⟩
  · intro st b n w hval
    refine ⟨newProductOf st b n, ?_, rfl⟩
    rw [createProduct_of_valid st b n w hval]
  · intro st b n w hnd
    by_cases hval : validateCreate b = []
    · rw [createProduct_of_valid st b n w hval]
      cases w with
      | false => simpa using hnd
      | true =>
        simp only [if_true, List.map_append, List.map_cons, List.map_nil]
        rw [List.nodup_append]
        refine ⟨hnd, List.nodup_singleton _, ?_⟩
        intro a ha hasingle
        rcases List.mem_singleton.mp hasingle with rfl
        exact maxId_succ_not_mem st ha
    · simpa [createProduct, hval] using hnd

/-- Witness for C2 at three concrete creates from the empty catalog. -/
theorem c2_create_ids_witness :
    (createMany [sampleCreateBody, sampleCreateBody, sampleCreateBody]
        0).map Product.id = idsUpTo 3 :=
  ((c2_create_ids [sampleCreateBody, sampleCreateBody, sampleCreateBody] 0
    (by decide)).1).1

/-- C4: with the products file unreadable, `GET /api/products` still
responds success=true with zero items: the read error degrades to the
empty catalog instead of propagating. -/
theorem c4_unreadable_read_degrades (q : ProductQuery) :
    listProducts none q =
      { success := true, count := 0, categories := [], data := [] } := by
  have h0 : getProductsData (none : Option (List Product)) = [] := rfl
  simp [listProducts, h0, filterCategory_nil, filterSearch_nil,
    filterMinPrice_nil, filterMaxPrice_nil, applySort_nil,
    distinctPreservingOrder]

/-- C5: deleting a nonexistent id — in either store — returns 404 with
success=false, leaves the stored collection unchanged, and performs no
write to storage. -/
theorem c5_delete_missing (ps : List Product) (s : String)
    (hnum : isNumericStr s = true)
    (habs : ∀ p ∈ ps, parseIntJs s ≠ some p.id)
    (subs : List Submission) (cid : String)
    (habs2 : ∀ t ∈ subs, t.id ≠ cid) (w w2 : Bool) :
    deleteProduct ps s w =
      { status := 404, success := false, data := none, errors := [],
        newState := ps, wrote := false } ∧
    deleteSubmission subs cid w2 =
      { status := 404, success := false, data := none, errors := [],
        newState := subs, wrote := false } := by
  constructor
  · have hidx : ps.findIdx?
        (fun p => (some p.id : Option Int) == parseIntJs s) = none := by
      rw [List.findIdx?_eq_none_iff]
      intro p hp
      exact beq_eq_false_iff_ne.mpr (fun h => habs p hp h.symm)
    simp [deleteProduct, hnum, hidx]
  · have hidx : subs.findIdx? (fun t => t.id == cid) = none := by
      rw [List.findIdx?_eq_none_iff]
      intro t ht
      exact beq_eq_false_iff_ne.mpr (habs2 t ht)
    simp [deleteSubmission, hidx]

/-- Witness for C5 at concrete one-element stores and absent ids. -/
theorem c5_delete_missing_witness :
    deleteProduct [demoProduct] "9" true =
      { status := 404, success := false, data := none, errors := [],
        newState := [demoProduct], wrote := false } ∧
    deleteSubmission [demoSubmission] "zz" true =
      { status := 404, success := false, data := none, errors := [],
        newState := [demoSubmission], wrote := false } :=
  c5_delete_missing [demoProduct] "9" (by decide) (by decide)
    [demoSubmission] "zz" (by decide) true true

/-- C3: `GET /api/products` with a (nonempty) category filter `X` only
returns records whose category matches `X` case-insensitively, and for
every query the `categories` field is the duplicate-free set of category
names of the whole unfiltered catalog. -/
theorem c3_category_filter (read : Option (List Product)) (q : ProductQuery)
    (X : String) (hq : q.category = some X) (hX : X ≠ "") :
    (∀ p ∈ (listProducts read q).data, jsToLower p.category = jsToLower X) ∧
    (∀ q2 : ProductQuery,
      (listProducts read q2).categories.Nodup ∧
      ∀ c, (c ∈ (listProducts read q2).categories ↔
        c ∈ (getProductsData read).map Product.category)) := by
  constructor
  · intro p hp
    have hd : (listProducts read q).data =
        applySort q (filterMaxPrice q (filterMinPrice q (filterSearch q
          (filterCategory q (getProductsData read))))) := rfl
    rw [hd] at hp
    have hp1 := mem_of_filterSearch (mem_of_filterMinPrice
      (mem_of_filterMaxPrice (mem_applySort.mp hp)))
    unfold filterCategory at hp1
    rw [hq] at hp1
    simp only [truthy_of_ne_empty X hX, if_true, Option.getD_some] at hp1
    have hbeq := (List.mem_filter.mp hp1).2
    exact beq_iff_eq.mp hbeq
  · intro q2
    have hc : (listProducts read q2).categories =
        distinctPreservingOrder
          ((getProductsData read).map Product.category) := rfl
    rw [hc]
    exact ⟨nodup_distinctPreservingOrder _,
      fun c => mem_distinctPreservingOrder _ c⟩

/-- Witness for C3 at a one-product catalog and an upper-case filter. -/
theorem c3_category_filter_witness :
    jsToLower demoProduct.category = jsToLower "SANITIZERS" ∧
    (listProducts (some [demoProduct]) ProductQuery.empty).categories.Nodup ∧
    ("Sanitizers" ∈
        (listProducts (some [demoProduct]) ProductQuery.empty).categories ↔
      "Sanitizers" ∈
        (getProductsData (some [demoProduct])).map Product.category) := by
  have h := c3_category_filter (some [demoProduct])
      { ProductQuery.empty with category := some "SANITIZERS" }
      "SANITIZERS" rfl (by decide)
  exact ⟨h.1 demoProduct (by decide), (h.2 ProductQuery.empty).1,
    (h.2 ProductQuery.empty).2 "Sanitizers"⟩

/-- C6: a valid contact submission is stored with the fresh identifier,
status pending, `phone` defaulted to null when absent and `createdAt`
stamped, preserving id-uniqueness; the response body is exactly
`{id, submittedAt}` (the `SubmitReply` shape carries no other field). -/
theorem c6_submit_response_shape (st : List Submission) (b : ContactBody)
    (fid : String) (now : Nat) (ip ua : String)
    (hv : validateContact b = [])
    (hfresh : ∀ t ∈ st, t.id ≠ fid)
    (hnd : (st.map Submission.id).Nodup) :
    contactSubmit st b fid now ip ua true =
      { status := 201, success := true,
        data := some { id := fid, submittedAt := now }, errors := [],
        newState := st ++ [newSubmissionOf b fid now ip ua],
        wrote := true } ∧
    (newSubmissionOf b fid now ip ua).id = fid ∧
    (newSubmissionOf b fid now ip ua).status = "pending" ∧
    (newSubmissionOf b fid now ip ua).createdAt = now ∧
    (b.phone = none → (newSubmissionOf b fid now ip ua).phone = none) ∧
    ((st ++ [newSubmissionOf b fid now ip ua]).map Submission.id).Nodup := by
  refine ⟨?_, rfl, rfl, rfl, ?_, ?_⟩
  · simp [contactSubmit, hv, newSubmissionOf]
  · intro hnone
    simp [newSubmissionOf, sanitizeContact, hnone, jsOrNull]
  · rw [List.map_append, List.nodup_append]
    refine ⟨hnd, by simp, ?_⟩
    intro a ha hb2
    simp only [List.map_cons, List.map_nil, List.mem_singleton] at hb2
    rcases List.mem_map.mp ha with ⟨t, ht, rfl⟩
    exact hfresh t ht (by simpa [newSubmissionOf] using hb2)

/-- Witness for C6 at the spec's worked example. -/
theorem c6_submit_response_shape_witness :
    contactSubmit [demoSubmission] demoContactBody "u2" 11 "::1" "UA" true =
      { status := 201, success := true,
        data := some { id := "u2", submittedAt := 11 }, errors := [],
        newState :=
          [demoSubmission] ++ [newSubmissionOf demoContactBody "u2" 11 "::1" "UA"],
        wrote := true } :=
  (c6_submit_response_shape [demoSubmission] demoContactBody "u2" 11 "::1"
    "UA" (by decide) (by decide) (by decide)).1

/-- C7: `PATCH /api/contact/submissions/:id` with a status outside the
four accepted values fails 400 with the per-field error and no write;
with `"archived"` on an existing id it succeeds, stamps `updatedAt`, and
the updated record appears in a subsequent
`GET /api/contact/submissions?status=archived`. -/
theorem c7_update_status (st : List Submission) (sid ns : String)
    (now : Nat) (w : Bool) (hbad : ns ∉ validStatuses)
    (st2 : List Submission) (sid2 : String) (now2 : Nat)
    (hex : ∃ s ∈ st2, s.id = sid2)
    (hnd : (st2.map Submission.id).Nodup) :
    updateSubmissionStatus st sid ns now w =
      { status := 400, success := false, data := none,
        errors := [⟨"status", "Invalid status"⟩], newState := st,
        wrote := false } ∧
    (updateSubmissionStatus st2 sid2 "archived" now2 true).status = 200 ∧
    (updateSubmissionStatus st2 sid2 "archived" now2 true).success = true ∧
    ∃ u, (updateSubmissionStatus st2 sid2 "archived" now2 true).data =
        some u ∧
      u.status = "archived" ∧ u.updatedAt = some now2 ∧
      u ∈ (listSubmissions
        (updateSubmissionStatus st2 sid2 "archived" now2 true).newState
        (some "archived") none).data := by
  constructor
  · simp [updateSubmissionStatus, hbad]
  · rcases hex with ⟨s0, hs0mem, hs0id⟩
    rcases nodup_key_decomp Submission.id st2 s0 hnd hs0mem with
      ⟨l1, l2, rfl, hl1ne, _hl2ne⟩
    have hpred : (s0.id == sid2) = true := by simp [hs0id]
    have hl1 : ∀ y ∈ l1, (y.id == sid2) = false := by
      intro y hy
      rw [beq_eq_false_iff_ne, ← hs0id]
      exact hl1ne y hy
    have hidx : (l1 ++ s0 :: l2).findIdx? (fun s => s.id == sid2) =
        some l1.length := by
      have h := findIdx?_append_cons (fun s => s.id == sid2) l1 s0 l2 0
        hl1 hpred
      simpa using h
    have hget : (l1 ++ s0 :: l2).get? l1.length = some s0 :=
      get?_append_cons l1 s0 l2
    have houtcome :
        updateSubmissionStatus (l1 ++ s0 :: l2) sid2 "archived" now2 true =
        { status := 200, success := true,
          data := some { s0 with
            status := "archived",
            updatedAt := some now2 },
          errors := [],
          newState := l1 ++ { s0 with
            status := "archived",
            updatedAt := some now2 } :: l2,
          wrote := true } := by
      simp only [updateSubmissionStatus, hidx]
      rw [if_neg (by decide)]
      simp only [hget, Option.getD_some, set_append_cons]
      simp
    rw [houtcome]
    refine ⟨rfl, rfl, ⟨_, rfl, rfl, rfl, ?_⟩⟩
    have hmemfilter : ({ s0 with
        status := "archived",
        updatedAt := some now2 } : Submission) ∈
        (l1 ++ { s0 with
          status := "archived",
          updatedAt := some now2 } :: l2).filter
          (fun s => s.status == "archived") := by
      rw [List.mem_filter]
      exact ⟨by simp, by simp⟩
    have htr : truthyStr (some "archived") = true := by decide
    simp only [listSubmissions, htr, if_true]
    rw [if_neg (show ¬ (none : Option String) = some "oldest" by simp)]
    exact (List.mergeSort_perm _ _).mem_iff.mpr hmemfilter

/-- Witness for C7 at a one-submission store. -/
theorem c7_update_status_witness :
    updateSubmissionStatus [demoSubmission] "u1" "bogus" 9 true =
      { status := 400, success := false, data := none,
        errors := [⟨"status", "Invalid status"⟩],
        newState := [demoSubmission], wrote := false } ∧
    (updateSubmissionStatus [demoSubmission] "u1" "archived" 9 true).status =
      200 := by
  have h := c7_update_status [demoSubmission] "u1" "bogus" 9 true
    (by decide) [demoSubmission] "u1" 9 ⟨demoSubmission, by decide, rfl⟩
    (by decide)
  exact ⟨h.1, h.2.1⟩

/-- C8: for an otherwise-valid contact body, a message whose trimmed
length is 9 fails validation with exactly the per-field message error,
length 10 passes, and in general the message rule accepts exactly
trimmed lengths 10 through 2000. -/
theorem c8_message_length_bounds (b : ContactBody)
    (h1 : nameErrors "firstName" "First name" b.firstName = [])
    (h2 : nameErrors "lastName" "Last name" b.lastName = [])
    (h3 : emailErrors b.email = [])
    (h4 : phoneErrors b.phone = [])
    (h5 : subjectErrors b.subject = []) :
    ((jsTrim b.message).length = 9 →
      validateContact b =
        [⟨"message", "Message must be 10-2000 characters"⟩]) ∧
    ((jsTrim b.message).length = 10 → validateContact b = []) ∧
    (∀ m : String, messageErrors m = [] ↔
      (10 ≤ (jsTrim m).length ∧ (jsTrim m).length ≤ 2000)) := by
  have hval : validateContact b = messageErrors b.message := by
    simp [validateContact, h1, h2, h3, h4, h5]
  refine ⟨?_, ?_, ?_⟩
  · intro h9
    rw [hval]
    have hne : jsTrim b.message ≠ "" := by
      intro he
      rw [he] at h9
      simp at h9
    have hrange : ¬ (10 ≤ (jsTrim b.message).length ∧
        (jsTrim b.message).length ≤ 2000) := by
      rw [h9]
      omega
    simp only [messageErrors]
    rw [if_neg hne, if_neg hrange]
    rfl
  · intro h10
    rw [hval]
    have hne : jsTrim b.message ≠ "" := by
      intro he
      rw [he] at h10
      simp at h10
    have hrange : 10 ≤ (jsTrim b.message).length ∧
        (jsTrim b.message).length ≤ 2000 := by
      rw [h10]
      omega
    simp only [messageErrors]
    rw [if_neg hne, if_pos hrange]
    rfl
  · intro m
    by_cases ht : jsTrim m = ""
    · constructor
      · intro h
        simp [messageErrors, ht] at h
      · intro h
        rw [ht] at h
        simp at h
    · simp only [messageErrors]
      rw [if_neg ht]
      by_cases hr : 10 ≤ (jsTrim m).length ∧ (jsTrim m).length ≤ 2000
      · rw [if_pos hr]
        simpa using hr
      · rw [if_neg hr]
        simpa using hr

/-- Witness for C8 at messages of trimmed length 9 and 10. -/
theorem c8_message_length_bounds_witness :
    validateContact { demoContactBody with message := "123456789" } =
      [⟨"message", "Message must be 10-2000 characters"⟩] ∧
    validateContact { demoContactBody with message := "1234567890" } =
      [] := by
  constructor
  · exact (c8_message_length_bounds _ (by decide) (by decide) (by decide)
      (by decide) (by decide)).1 (by decide)
  · exact (c8_message_length_bounds _ (by decide) (by decide) (by decide)
      (by decide) (by decide)).2.1 (by decide)

/-- C9: the products `:id` routes accept any string passing `isNumeric`,
not only integers, and match by `parseInt` truncation: id `"2.5"` passes
validation and `GET`/`PUT`/`DELETE` with it return, update, or delete
the product whose id is 2. -/
theorem c9_fractional_id (ps : List Product) (p : Product)
    (hmem : p ∈ ps) (hid : p.id = 2) (hnd : (ps.map Product.id).Nodup)
    (b : UpdateBody) (hb : validateUpdate "2.5" b = []) (now : Nat) :
    isNumericStr "2.5" = true ∧
    parseIntJs "2.5" = some 2 ∧
    getProduct ps "2.5" =
      { status := 200, success := true, data := some p, errors := [],
        newState := ps, wrote := false } ∧
    (updateProduct ps "2.5" b now true).success = true ∧
    (∃ u, (updateProduct ps "2.5" b now true).data = some u ∧
      u.id = 2 ∧ u.updatedAt = some now) ∧
    (deleteProduct ps "2.5" true).success = true ∧
    (deleteProduct ps "2.5" true).data = some p ∧
    (∀ q ∈ (deleteProduct ps "2.5" true).newState, q.id ≠ 2) := by
  have hparse : parseIntJs "2.5" = some 2 := by decide
  have hnum : isNumericStr "2.5" = true := by decide
  rcases nodup_key_decomp Product.id ps p hnd hmem with ⟨l1, l2, hdec, h1, h2⟩
  subst hdec
  have hpred : ((some p.id : Option Int) == parseIntJs "2.5") = true := by
    rw [hparse, hid]
    rfl
  have hl1 : ∀ y ∈ l1,
      ((some y.id : Option Int) == parseIntJs "2.5") = false := by
    intro y hy
    rw [hparse, beq_eq_false_iff_ne]
    intro hcon
    have hyid : y.id = 2 := by
      simpa using hcon
    exact h1 y hy (hyid.trans hid.symm)
  have hfind : (l1 ++ p :: l2).find?
      (fun q => (some q.id : Option Int) == parseIntJs "2.5") = some p :=
    find?_append_cons _ l1 p l2 hl1 hpred
  have hidx : (l1 ++ p :: l2).findIdx?
      (fun q => (some q.id : Option Int) == parseIntJs "2.5") =
      some l1.length := by
    have h := findIdx?_append_cons
      (fun q => (some q.id : Option Int) == parseIntJs "2.5") l1 p l2 0
      hl1 hpred
    simpa using h
  have hget : (l1 ++ p :: l2).get? l1.length = some p :=
    get?_append_cons l1 p l2
  have hupd : updateProduct (l1 ++ p :: l2) "2.5" b now true =
      { status := 200, success := true,
        data := some (mergeUpdate p b now), errors := [],
        newState := l1 ++ mergeUpdate p b now :: l2, wrote := true } := by
    simp only [updateProduct, hb, hidx]
    simp only [hget, Option.getD_some, set_append_cons]
    simp
  have hdel : deleteProduct (l1 ++ p :: l2) "2.5" true =
      { status := 200, success := true, data := some p, errors := [],
        newState := l1 ++ l2, wrote := true } := by
    simp only [deleteProduct, hnum, hidx]
    simp only [hget, eraseIdx_append_cons]
    simp
  refine ⟨hnum, hparse, ?_, ?_, ?_, ?_, ?_, ?_⟩
  · simp [getProduct, hnum, hfind]
  · rw [hupd]
  · refine ⟨mergeUpdate p b now, ?_, ?_, rfl⟩
    · rw [hupd]
    · simpa [mergeUpdate] using hid
  · rw [hdel]
  · rw [hdel]
  · rw [hdel]
    intro q hq
    rcases List.mem_append.mp hq with hql | hqr
    · exact fun hq2 => h1 q hql (hq2.trans hid.symm)
    · exact fun hq2 => h2 q hqr (hq2.trans hid.symm)

/-- Witness for C9 at a one-product catalog with id 2. -/
theorem c9_fractional_id_witness :
    getProduct [demoProduct] "2.5" =
      { status := 200, success := true, data := some demoProduct,
        errors := [], newState := [demoProduct], wrote := false } ∧
    (deleteProduct [demoProduct] "2.5" true).data = some demoProduct := by
  have h := c9_fractional_id [demoProduct] demoProduct (by decide)
    (by decide) (by decide) emptyUpdateBody (by decide) 7
  exact ⟨h.2.2.1, h.2.2.2.2.2.2.1⟩

/-- C10: a present but non-numeric `minPrice` or `maxPrice` query value
(`parseFloat` yields `NaN`) makes `GET /api/products` return a successful
response with an empty item list — the `NaN` comparison filters every
product out — rather than a validation error. -/
theorem c10_nan_price_filter (read : Option (List Product))
    (q : ProductQuery) (s : String) (hs : s ≠ "")
    (hnan : parseFloatJs s = JsNumber.nan) :
    (q.minPrice = some s →
      (listProducts read q).success = true ∧
      (listProducts read q).count = 0 ∧
      (listProducts read q).data = []) ∧
    (q.maxPrice = some s →
      (listProducts read q).success = true ∧
      (listProducts read q).count = 0 ∧
      (listProducts read q).data = []) := by
  constructor
  · intro hmin
    have hempty : filterMinPrice q (filterSearch q (filterCategory q
        (getProductsData read))) = [] := by
      unfold filterMinPrice
      rw [hmin]
      simp only [truthy_of_ne_empty s hs, if_true, Option.getD_some, hnan]
      simp [geFloat]
    have hdata : (listProducts read q).data = [] := by
      have hd : (listProducts read q).data =
          applySort q (filterMaxPrice q (filterMinPrice q (filterSearch q
            (filterCategory q (getProductsData read))))) := rfl
      rw [hd, hempty, filterMaxPrice_nil, applySort_nil]
    have hcount : (listProducts read q).count =
        (listProducts read q).data.length := rfl
    exact ⟨rfl, by rw [hcount, hdata]; rfl, hdata⟩
  · intro hmax
    have hempty : filterMaxPrice q (filterMinPrice q (filterSearch q
        (filterCategory q (getProductsData read)))) = [] := by
      unfold filterMaxPrice
      rw [hmax]
      simp only [truthy_of_ne_empty s hs, if_true, Option.getD_some, hnan]
      simp [leFloat]
    have hdata : (listProducts read q).data = [] := by
      have hd : (listProducts read q).data =
          applySort q (filterMaxPrice q (filterMinPrice q (filterSearch q
            (filterCategory q (getProductsData read))))) := rfl
      rw [hd, hempty, applySort_nil]
    have hcount : (listProducts read q).count =
        (listProducts read q).data.length := rfl
    exact ⟨rfl, by rw [hcount, hdata]; rfl, hdata⟩

/-- Witness for C10 at a one-product catalog and the bound `"abc"`. -/
theorem c10_nan_price_filter_witness :
    (listProducts (some [demoProduct])
      { ProductQuery.empty with minPrice := some "abc" }).data = [] ∧
    (listProducts (some [demoProduct])
      { ProductQuery.empty with maxPrice := some "abc" }).data = [] := by
  have h1 := c10_nan_price_filter (some [demoProduct])
    { ProductQuery.empty with minPrice := some "abc" } "abc" (by decide)
    (by decide)
  have h2 := c10_nan_price_filter (some [demoProduct])
    { ProductQuery.empty with maxPrice := some "abc" } "abc" (by decide)
    (by decide)
  exact ⟨(h1.1 rfl).2.2, (h2.2 rfl).2.2⟩

end Mashchem
